import Mathlib

/-!
Shallow embedding of the musa-bot music orchestration core:
the multi-source manager (`src/services/multi_source_manager.py`),
the playback driver and guild queue (`src/cogs/music.py`), and the
web-video resolver (`src/services/youtube.py`).

Python coroutine calls that may raise are modelled as `Except String α`
values; dictionaries keyed by service or guild name are modelled as
association lists; the per-guild FIFO deque is modelled as a `List`
(append at the tail, pop at the head).
-/

set_option autoImplicit false

namespace Musa

/-! ### String helpers (kernel-evaluable analogues of the Python string ops) -/

/-- Python `pat in s` substring test. -/
def strContains (s pat : String) : Bool :=
  s.toList.tails.any (fun t => pat.toList.isPrefixOf t)

/-- Python `s.startswith(pat)`. -/
def strStarts (s pat : String) : Bool :=
  pat.toList.isPrefixOf s.toList

/-- Python `s.lower()`. -/
def strLower (s : String) : String :=
  ⟨s.toList.map Char.toLower⟩

/-- Python truthiness of an optional string: `None` and `""` are falsy. -/
def optStrTruthy : Option String → Bool
  | none => false
  | some s => s != ""

/-- Stable insertion of `x` into a list sorted by `le`
(`le x y` means `x` may stay in front of `y`). -/
def insertBy {α : Type} (le : α → α → Bool) (x : α) : List α → List α
  | [] => [x]
  | y :: ys => if le x y then x :: y :: ys else y :: insertBy le x ys

/-- Stable sort by `le`; with `le f g := key g ≤ key f` this is Python's
`sorted(xs, key=key, reverse=True)` (stable, descending key). -/
def sortBy {α : Type} (le : α → α → Bool) : List α → List α
  | [] => []
  | x :: xs => insertBy le x (sortBy le xs)

/-! ### Data model

`SongInfo` is the unresolved song-descriptor dictionary that providers
produce from `search` and later receive back in `resolve_url`.  Only the
`service` key is read by the coordinator; the rest is uninterpreted payload,
represented by a `tag`. -/

structure SongInfo where
  service : Option String := none
  title : Option String := none
  url : Option String := none
  isLiveStream : Bool := false
  tag : Nat := 0
deriving DecidableEq, Repr

/-- Outcome of awaiting a Python coroutine: a value, or a raised exception
carrying its message. -/
abbrev PyResult (α : Type) := Except String α

/-- A provider (`AudioService` in `src/services/base_service.py`):
identifier, enabled flag, integer priority (lower = tried first), and the
observable outcomes of its three async operations. -/
structure AudioService where
  name : String
  enabled : Bool
  priority : Int
  availResult : PyResult Bool
  searchResult : String → PyResult (List SongInfo)
  resolveResult : SongInfo → PyResult (Option SongInfo)

/-- The registry (`MultiSourceManager` in
`src/services/multi_source_manager.py`): holds the provider list, kept
sorted ascending by priority. -/
structure MultiSourceManager where
  services : List AudioService

namespace MultiSourceManager

/-- Model of `get_service_by_name`: first provider with the given name. -/
def getServiceByName (m : MultiSourceManager) (name : String) : Option AudioService :=
  m.services.find? (fun s => s.name == name)

/-- Model of `get_enabled_services`: all enabled providers, in list order. -/
def getEnabledServices (m : MultiSourceManager) : List AudioService :=
  m.services.filter (fun s => s.enabled)

/-- Shared body of `enable_service` / `disable_service`: set the enabled
flag of the first provider with the given name; report whether one was
found (the Python loop returns on the first match). -/
def setEnabledByName (flag : Bool) : List AudioService → String → List AudioService × Bool
  | [], _ => ([], false)
  | s :: rest, n =>
    if s.name == n then ({ s with enabled := flag } :: rest, true)
    else
      let r := setEnabledByName flag rest n
      (s :: r.1, r.2)

/-- Model of `disable_service`. -/
def disableService (m : MultiSourceManager) (name : String) : MultiSourceManager × Bool :=
  let r := setEnabledByName false m.services name
  (⟨r.1⟩, r.2)

/-- Model of `enable_service`. -/
def enableService (m : MultiSourceManager) (name : String) : MultiSourceManager × Bool :=
  let r := setEnabledByName true m.services name
  (⟨r.1⟩, r.2)

/-! ### `search_with_fallback` (lines 156-204 of the manager)

The loop body wraps `is_available` and `search` in one `try`/`except`
whose handler logs and `continue`s, so an exception from either call is a
failed attempt.  An unavailable provider and an empty result also fail the
attempt; the first non-empty result is returned as is. -/

/-- One attempt of the fallback loop fails when the availability probe
raises or returns false, or the search raises or returns no results. -/
def fallbackAttemptFails (s : AudioService) (q : String) : Bool :=
  match s.availResult with
  | .error _ => true
  | .ok false => true
  | .ok true =>
    match s.searchResult q with
    | .error _ => true
    | .ok [] => true
    | .ok (_ :: _) => false

/-- The `for service in self.get_enabled_services()` loop of
`search_with_fallback`, over an explicit service list. -/
def fallbackLoop (q : String) : List AudioService → List SongInfo
  | [] => []
  | s :: rest =>
    match s.availResult with
    | .error _ => fallbackLoop q rest
    | .ok false => fallbackLoop q rest
    | .ok true =>
      match s.searchResult q with
      | .error _ => fallbackLoop q rest
      | .ok [] => fallbackLoop q rest
      | .ok (r :: rs) => r :: rs

/-- Model of `search_with_fallback`: the loop runs over the enabled providers; the
return type has no error channel because every provider exception is
caught inside the loop. -/
def searchWithFallback (m : MultiSourceManager) (q : String) : List SongInfo :=
  fallbackLoop q (m.getEnabledServices)

/-- The providers the fallback loop attempts, in attempt order: every
failing provider followed by the first succeeding one, if any. -/
def fallbackVisited (q : String) : List AudioService → List AudioService
  | [] => []
  | s :: rest =>
    s :: (if fallbackAttemptFails s q then fallbackVisited q rest else [])

/-! ### `search_all_sources` (lines 97-154 of the manager) -/

/-- Model of `_search_service_with_limit`: truncate the provider's results to the
first `limit` entries; a raising provider contributes `[]`.  (The outer
`await task` is wrapped in a second `try`/`except` that also maps an
exception to `[]`, so one catch models both.) -/
def searchServiceWithLimit (s : AudioService) (q : String) (limit : Nat) : List SongInfo :=
  match s.searchResult q with
  | .ok results => results.take limit
  | .error _ => []

/-- Model of `search_all_sources`: one task per enabled provider, all awaited; the
result dictionary has one entry per enabled provider. -/
def searchAllSources (m : MultiSourceManager) (q : String) (maxResultsPerSource : Nat) :
    List (String × List SongInfo) :=
  m.getEnabledServices.map (fun s => (s.name, searchServiceWithLimit s q maxResultsPerSource))

/-! ### `resolve_song_url` (lines 206-253 of the manager) -/

/-- Model of `resolve_song_url`: a missing (or falsy, i.e. empty) `service` key, or
no enabled provider of that name, yields `none`; otherwise the owning
provider's `resolve_url` is awaited inside `try`/`except`, an exception
becoming `none`. -/
def resolveSongUrl (m : MultiSourceManager) (info : SongInfo) : Option SongInfo :=
  match info.service with
  | none => none
  | some sname =>
    if sname == "" then none
    else
      match m.services.find? (fun s => s.name == sname && s.enabled) with
      | none => none
      | some s =>
        match s.resolveResult info with
        | .ok r => r
        | .error _ => none

/-! ### `get_service_status` (lines 255-286 of the manager) -/

/-- One entry of the status dictionary. -/
structure ServiceStatusEntry where
  enabled : Bool
  priority : Int
  available : Bool
  status : String
  errorText : Option String
deriving DecidableEq, Repr

/-- Status of one provider: the probe is awaited only when the provider is
enabled (`await service.is_available() if service.enabled else False`); a
raising probe produces the `"error"` entry carrying the message. -/
def serviceStatusOf (s : AudioService) : ServiceStatusEntry :=
  match (if s.enabled then s.availResult else .ok false) with
  | .ok avail =>
    { enabled := s.enabled, priority := s.priority, available := avail
      status := if s.enabled && avail then "online" else "offline"
      errorText := none }
  | .error e =>
    { enabled := s.enabled, priority := s.priority, available := false
      status := "error", errorText := some e }

/-- Model of `get_service_status`: one entry per registered provider. -/
def getServiceStatus (m : MultiSourceManager) : List (String × ServiceStatusEntry) :=
  m.services.map (fun s => (s.name, serviceStatusOf s))

end MultiSourceManager

/-! ## The cog (`src/cogs/music.py`) -/

namespace MusicCog

open MultiSourceManager

/-! ### Guild playback queue

`self.song_queues[guild_id]` is a `deque`; `/play` and `/radio` append
with `extend` and the driver removes with `popleft`. -/

/-- Python `deque.extend`: append a batch at the tail, preserving its order. -/
def enqueueSongs (q batch : List SongInfo) : List SongInfo :=
  q ++ batch

/-- Python `deque.popleft`, guarded by the queue being non-empty
(`if self.song_queues.get(guild_id):`): pop the head. -/
def dequeueSong : List SongInfo → Option (SongInfo × List SongInfo)
  | [] => none
  | x :: rest => some (x, rest)

/-- Repeatedly dequeue until the queue is empty, collecting the
descriptors in the order the driver would receive them. -/
def drainQueue (q : List SongInfo) : List SongInfo :=
  match h : dequeueSong q with
  | none => []
  | some xr => xr.1 :: drainQueue xr.2
termination_by q.length
decreasing_by
  cases q with
  | nil => simp [dequeueSong] at h
  | cons a as =>
    simp [dequeueSong] at h
    simp [← h]

/-! ### The playback driver: `play_next_song` (lines 330-397) -/

/-- Observable side effects of one `play_next_song` invocation. -/
inductive DriverAction where
  | cancelInactivityTimer
  | cancelEmptyChannelTimer
  | resolveFailed (info : SongInfo)
  | setActivity (song : SongInfo)
  | startPlayback (song : SongInfo)
  | clearActivity
  | startInactivityTimer
  | disconnectVoice
deriving DecidableEq, Repr

/-- Result of `play_next_song`: the queue left behind, the value written
into `current_song[guild_id]` (if any), and the emitted actions. -/
structure DriverResult where
  queue : List SongInfo
  current : Option SongInfo
  actions : List DriverAction
deriving Repr

/-- Model of `play_next_song`: both timers are cancelled on entry; a non-empty
queue is popped and the head resolved through the manager — on failure the
descriptor is dropped and the driver re-invokes itself on the rest
(`return await self.play_next_song(...)`); on success the song becomes
current and playback starts.  An empty queue clears the activity and
starts the inactivity timer (it does not disconnect). -/
def playNextSong (m : MultiSourceManager) : List SongInfo → DriverResult
  | [] =>
    { queue := [], current := none
      actions := [.cancelInactivityTimer, .cancelEmptyChannelTimer,
                  .clearActivity, .startInactivityTimer] }
  | info :: rest =>
    match resolveSongUrl m info with
    | none =>
      let r := playNextSong m rest
      { r with
          actions := .cancelInactivityTimer :: .cancelEmptyChannelTimer ::
                     .resolveFailed info :: r.actions }
    | some song =>
      { queue := rest, current := some song
        actions := [.cancelInactivityTimer, .cancelEmptyChannelTimer,
                    .setActivity song, .startPlayback song] }

/-! ### The `/stop` command (lines 709-817) -/

/-- Outcome of `await asyncio.wait_for(vc.disconnect(), timeout=5)`. -/
inductive DisconnectOutcome where
  | success
  | timeout
  | failure (e : String)
deriving DecidableEq, Repr

/-- Observable side effects of `/stop`. -/
inductive StopAction where
  | cancelInactivityTimer
  | cancelEmptyChannelTimer
  | transportStop
  | clearActivity
  | disconnectVoice
deriving DecidableEq, Repr

/-- The reply the caller receives from `/stop`; every disconnect failure
is caught, so the command always replies and never raises. -/
inductive StopReply where
  | notConnected
  | stopped
  | stoppedWithWarning
  | stoppedWithError (e : String)
deriving DecidableEq, Repr

/-- Per-guild mutable state touched by the commands and timers. -/
structure GuildPlaybackState where
  queue : List SongInfo
  current : Option SongInfo
  inactivityTimer : Option Nat
  emptyChannelTimer : Option Nat
deriving DecidableEq, Repr

/-- Model of `/stop`: with no voice client it only replies; otherwise it clears the
queue, cancels both timers, stops the transport if playing or paused,
removes the current song, clears the activity and awaits a bounded
disconnect — a timeout adds a warning field to the reply and any other
disconnect exception an error field, the state staying cleared. -/
def stopCommand (st : GuildPlaybackState) (vcConnected vcPlaying vcPaused : Bool)
    (disc : DisconnectOutcome) : GuildPlaybackState × List StopAction × StopReply :=
  if !vcConnected then (st, [], .notConnected)
  else
    let st1 := { st with
                   queue := [], inactivityTimer := none, emptyChannelTimer := none
                   current := none }
    let acts := [StopAction.cancelInactivityTimer, StopAction.cancelEmptyChannelTimer]
      ++ (if vcPlaying || vcPaused then [StopAction.transportStop] else [])
      ++ [StopAction.clearActivity, StopAction.disconnectVoice]
    match disc with
    | .success => (st1, acts, .stopped)
    | .timeout => (st1, acts, .stoppedWithWarning)
    | .failure e => (st1, acts, .stoppedWithError e)

/-! ### Guild-scoped timers (lines 108-199)

Each timer kind lives in its own dictionary (`self.inactivity_timers`,
`self.empty_channel_timers`), keyed by guild id.  We model one kind as an
association list `tracked` (the dictionary) plus the list `running` of
timer tasks that have been created and neither cancelled nor expired. -/

/-- State of one timer kind: the live tasks `(guildId, taskId)` and the
tracking dictionary. -/
structure TimerSys where
  running : List (String × Nat)
  tracked : List (String × Nat)
deriving DecidableEq, Repr

/-- Dictionary removal `del d[g]`. -/
def eraseKey (d : List (String × Nat)) (g : String) : List (String × Nat) :=
  d.filter (fun p => p.1 != g)

/-- Dictionary write `d[g] = t`. -/
def insertKey (d : List (String × Nat)) (g : String) (t : Nat) : List (String × Nat) :=
  (g, t) :: eraseKey d g

/-- Model of `_cancel_inactivity_timer` / `_cancel_empty_channel_timer`: if the
guild has a tracked timer, cancel that task and delete the entry;
otherwise do nothing. -/
def cancelTimer (sys : TimerSys) (g : String) : TimerSys :=
  match sys.tracked.lookup g with
  | some t =>
    { running := sys.running.filter (fun p => !(p.1 == g && p.2 == t))
      tracked := eraseKey sys.tracked g }
  | none => sys

/-- Model of `_start_inactivity_timer` / `_start_empty_channel_timer`: first cancel
any existing timer of the same kind for the guild, then create and track a
fresh task. -/
def startTimer (sys : TimerSys) (g : String) (fresh : Nat) : TimerSys :=
  let s1 := cancelTimer sys g
  { running := (g, fresh) :: s1.running
    tracked := insertKey s1.tracked g fresh }

/-- Invariant on one timer kind: at most one live task per guild, and
every live task is the one its guild's dictionary entry tracks. -/
def TimerInv (sys : TimerSys) : Prop :=
  (sys.running.map Prod.fst).Nodup ∧
  ∀ p ∈ sys.running, sys.tracked.lookup p.1 = some p.2

/-- The body of `disconnect_after_timeout` after the sleep: only when the
guild still has a tracked timer and the voice client is present with
nothing playing and nothing paused does it disconnect and clear the
guild's current song and queue.  Returns the queue, the current song and
whether a disconnect happened. -/
def inactivityExpiry (stillTracked vcPresent vcPlaying vcPaused : Bool)
    (queue : List SongInfo) (current : Option SongInfo) :
    List SongInfo × Option SongInfo × Bool :=
  if stillTracked && (vcPresent && !vcPlaying && !vcPaused) then
    ([], none, true)
  else
    (queue, current, false)

/-! ### The `/play` search loop (lines 527-561) and `/radio` (lines 1034-1054) -/

/-- The `for service in self.music_manager.get_enabled_services()` loop of
`/play`: providers named `radio` are skipped without being probed or
searched; the first non-radio provider that is available and returns
results contributes exactly its first result, and the loop breaks. -/
def playSearchLoop (q : String) : List AudioService → List SongInfo
  | [] => []
  | s :: rest =>
    if s.name != "radio" then
      match s.availResult with
      | .ok true =>
        match s.searchResult q with
        | .ok (r :: _) => [r]
        | .ok [] => playSearchLoop q rest
        | .error _ => playSearchLoop q rest
      | .ok false => playSearchLoop q rest
      | .error _ => playSearchLoop q rest
    else playSearchLoop q rest

/-- The descriptors `/play` appends to the guild queue. -/
def playCommandSongs (m : MultiSourceManager) (q : String) : List SongInfo :=
  playSearchLoop q m.getEnabledServices

/-- The providers whose `is_available`/`search` the `/play` loop actually
invokes, in order (radio entries are filtered out before any call). -/
def playSearchVisited (q : String) : List AudioService → List AudioService
  | [] => []
  | s :: rest =>
    if s.name != "radio" then
      s :: (if MultiSourceManager.fallbackAttemptFails s q then playSearchVisited q rest else [])
    else playSearchVisited q rest

/-- The descriptors `/radio` appends to the guild queue: the stations the
radio provider (looked up by name, whatever its enabled flag) returns for
the genre; a raising search is caught and nothing is enqueued. -/
def radioCommandSongs (m : MultiSourceManager) (genre : String) : List SongInfo :=
  match m.getServiceByName "radio" with
  | none => []
  | some rs =>
    match rs.searchResult genre with
    | .ok stations => stations
    | .error _ => []

end MusicCog

/-! ## The web-video resolver (`src/services/youtube.py`, `resolve_song`) -/

namespace YouTube

/-- One entry of a descriptor's `formats` list. -/
structure YtFormat where
  acodec : Option String := none
  vcodec : Option String := none
  ext : Option String := none
  protocol : Option String := none
  abr : Option Int := none
  url : Option String := none
deriving DecidableEq, Repr

/-- The fields of the extractor's info dictionary that `resolve_song`
reads. -/
structure YtSongInfo where
  title : Option String := none
  webpageUrl : Option String := none
  duration : Option Int := none
  thumbnail : Option String := none
  url : Option String := none
  formats : Option (List YtFormat) := none
deriving DecidableEq, Repr

/-- The dictionary `resolve_song` returns on success. -/
structure YtResolvedSong where
  url : String
  title : String
  duration : Option Int
  thumbnail : Option String
deriving DecidableEq, Repr

/-- Python `title = song_info.get("title") or song_info.get("webpage_url") or
"Untitled"` (Python falsy chaining). -/
def ytDisplayTitle (info : YtSongInfo) : String :=
  if optStrTruthy info.title then info.title.getD ""
  else if optStrTruthy info.webpageUrl then info.webpageUrl.getD ""
  else "Untitled"

/-- The inner `score(f)` of `resolve_song`: `-1` for formats without a
real audio codec or without a URL; otherwise bonuses for audio-only,
preferred codecs and containers, secure transport, plus the audio
bitrate. -/
def formatScore (f : YtFormat) : Int :=
  let acodec := f.acodec.getD ""
  if acodec == "none" || acodec == "" || !optStrTruthy f.url then -1
  else
    let ac := strLower acodec
    let ext := strLower (f.ext.getD "")
    let proto := f.protocol.getD ""
    (if f.vcodec == none || f.vcodec == some "none" then 10 else 0)
      + (if strStarts ac "opus" || strStarts ac "vorbis" then 6 else 0)
      + (if strStarts ac "mp4a" || strStarts ac "aac" then 5 else 0)
      + (if ext == "webm" || ext == "m4a" || ext == "mp4" then 5 else 0)
      + (if strStarts proto "https" then 3 else if strStarts proto "http" then 1 else 0)
      + f.abr.getD 0

/-- The selection loop's guard: `acodec not in ("none", "") and
f.get("url")`. -/
def formatValid (f : YtFormat) : Bool :=
  let acodec := f.acodec.getD ""
  !(acodec == "none" || acodec == "") && optStrTruthy f.url

/-- Model of `best = sorted(fmts, key=score, reverse=True)` followed by the loop
taking the first valid format's URL. -/
def selectAudioUrl (fmts : List YtFormat) : Option String :=
  let best := sortBy (fun f g => formatScore g ≤ formatScore f) fmts
  (best.find? formatValid).bind (fun f => f.url)

/-- The literal non-media URL patterns `resolve_song` rejects. -/
def ytNonMediaPatterns : List String :=
  ["googleusercontent.com/thumbnail", "storyboard"]

/-- Python `any(x in audio_url for x in [...])`. -/
def isNonMediaUrl (u : String) : Bool :=
  ytNonMediaPatterns.any (fun p => strContains u p)

/-- The `audio_url` the function settles on before the non-media check:
the best format's URL, or else the descriptor's own `url` field when that
is truthy and is not a `youtube.com/watch` page link. -/
def ytCandidateUrl (info : YtSongInfo) : Option String :=
  match selectAudioUrl (info.formats.getD []) with
  | some u => some u
  | none =>
    match info.url with
    | some candidate =>
      if candidate != "" && !strContains candidate "youtube.com/watch" then some candidate
      else none
    | none => none

/-- Model of `resolve_song`: return the resolved dictionary only when a candidate
URL was found and it matches no known non-media pattern. -/
def resolveSong (info : YtSongInfo) : Option YtResolvedSong :=
  match ytCandidateUrl info with
  | some u =>
    if u != "" && !isNonMediaUrl u then
      some { url := u, title := ytDisplayTitle info
             duration := info.duration, thumbnail := info.thumbnail }
    else none
  | none => none

end YouTube

/-! ## Concrete descriptors and providers used as test fixtures -/

def songY : SongInfo :=
  { service := some "youtube", title := some "Clip", tag := 1 }

def songB : SongInfo :=
  { service := some "internet_archive", title := some "Bossa", tag := 2 }

def songR : SongInfo :=
  { service := some "radio", title := some "Radio Pop", isLiveStream := true, tag := 3 }

/-- A radio provider that is enabled and has the best (lowest) priority. -/
def svcRadioEx : AudioService :=
  { name := "radio", enabled := true, priority := 0
    availResult := .ok true
    searchResult := fun _ => .ok [songR]
    resolveResult := fun _ => .ok (some songR) }

/-- A web-video provider whose searches come back empty. -/
def svcYouTubeEx : AudioService :=
  { name := "youtube", enabled := true, priority := 1
    availResult := .ok true
    searchResult := fun _ => .ok []
    resolveResult := fun _ => .ok none }

/-- An archive provider that finds one song and resolves it to a direct
URL. -/
def svcArchiveEx : AudioService :=
  { name := "internet_archive", enabled := true, priority := 2
    availResult := .ok true
    searchResult := fun _ => .ok [songB]
    resolveResult := fun i => .ok (some { i with url := some "https://archive.example/item.mp3" }) }

def mgrEx : MultiSourceManager := ⟨[svcRadioEx, svcYouTubeEx, svcArchiveEx]⟩

/-- What `svcArchiveEx` resolves `songB` to. -/
def songBRes : SongInfo :=
  { songB with url := some "https://archive.example/item.mp3" }

/-- The web-video provider, disabled (as after `ENABLE_YOUTUBE=false`). -/
def svcYouTubeOff : AudioService := { svcYouTubeEx with enabled := false }

def mgrDis : MultiSourceManager := ⟨[svcYouTubeOff, svcArchiveEx]⟩

/-- A provider whose availability probe raises. -/
def svcDown : AudioService :=
  { name := "youtube", enabled := true, priority := 1
    availResult := .error "probe crashed"
    searchResult := fun _ => .ok [songY]
    resolveResult := fun _ => .ok none }

/-- A provider whose availability probe answers false. -/
def svcUnavail : AudioService :=
  { name := "internet_archive", enabled := true, priority := 2
    availResult := .ok false
    searchResult := fun _ => .ok [songB]
    resolveResult := fun _ => .ok none }

/-- A provider whose search raises. -/
def svcRaises : AudioService :=
  { name := "radio", enabled := true, priority := 3
    availResult := .ok true
    searchResult := fun _ => .error "boom"
    resolveResult := fun _ => .ok none }

def mgrFail : MultiSourceManager := ⟨[svcDown, svcUnavail, svcRaises]⟩

def stEx : MusicCog.GuildPlaybackState :=
  { queue := [songB, songR], current := some songY
    inactivityTimer := some 7, emptyChannelTimer := none }

def sysEx : MusicCog.TimerSys :=
  { running := [("g1", 4)], tracked := [("g1", 4)] }

/-- A format whose best candidate URL is a storyboard asset. -/
def fmtStory : YouTube.YtFormat :=
  { acodec := some "mp4a.40.2", vcodec := some "none", ext := some "mp4"
    protocol := some "https", abr := some 128
    url := some "https://i.ytimg.com/sb/abc/storyboard3_L2/M0.jpg" }

def infoStory : YouTube.YtSongInfo :=
  { title := some "Video", formats := some [fmtStory] }

/-! ## Theorems -/

open MultiSourceManager MusicCog YouTube

/-! ### C5 — guild queue FIFO order -/

theorem drainQueue_id (q : List SongInfo) : drainQueue q = q := by
  induction q with
  | nil => rw [drainQueue]; rfl
  | cons a as ih =>
    rw [drainQueue]
    simpa [dequeueSong] using ih

theorem foldl_enqueueSongs (batches : List (List SongInfo)) (init : List SongInfo) :
    batches.foldl enqueueSongs init = init ++ batches.flatten := by
  induction batches generalizing init with
  | nil => simp
  | cons b bs ih => simp [enqueueSongs, ih, List.append_assoc]

/-- C5: for every sequence of enqueue batches on a fresh guild queue (and
no shuffle in between), repeatedly dequeuing from the head returns the
descriptors in exactly the order they were enqueued — batches are appended
at the tail in order, and their concatenation is what the driver pops. -/
theorem guild_queue_fifo (batches : List (List SongInfo)) :
    drainQueue (batches.foldl enqueueSongs []) = batches.flatten := by
  rw [drainQueue_id, foldl_enqueueSongs, List.nil_append]

/-! ### C8 — provider status derivation -/

/-- C8: every registered provider gets a status entry; the entry is
`"online"` iff the provider is enabled and its availability probe answered
true; an enabled but unavailable provider is `"offline"`; a probe that
raises yields `"error"` carrying the message. -/
theorem get_service_status_spec (m : MultiSourceManager) (s : AudioService)
    (hs : s ∈ m.services) :
    (s.name, serviceStatusOf s) ∈ getServiceStatus m ∧
    ((serviceStatusOf s).status = "online" ↔
      (s.enabled = true ∧ s.availResult = .ok true)) ∧
    (s.enabled = true → s.availResult = .ok false →
      (serviceStatusOf s).status = "offline") ∧
    (∀ e, s.enabled = true → s.availResult = .error e →
      (serviceStatusOf s).status = "error" ∧
      (serviceStatusOf s).errorText = some e) := by
  refine ⟨List.mem_map_of_mem _ hs, ?_, ?_, ?_⟩
  · cases he : s.enabled with
    | false => simp [serviceStatusOf, he]
    | true =>
      cases ha : s.availResult with
      | error e => simp [serviceStatusOf, he, ha]
      | ok b => cases b <;> simp [serviceStatusOf, he, ha]
  · intro he ha
    simp [serviceStatusOf, he, ha]
  · intro e he ha
    simp [serviceStatusOf, he, ha]

/-- Closed instance of C8: a provider with a raising probe, checked
against a concrete registry. -/
theorem get_service_status_witness :
    (serviceStatusOf svcDown).status = "error" ∧
    (serviceStatusOf svcDown).errorText = some "probe crashed" :=
  (get_service_status_spec mgrFail svcDown (by simp [mgrFail])).2.2.2
    "probe crashed" rfl rfl

/-! ### C4 — coordinator resolve routing -/

/-- C4: `resolve_song_url` yields nothing (and no exception) when the
descriptor has no provider identifier or no enabled provider carries that
name; otherwise it delegates to the owning provider's resolve, and a
raising provider is converted to nothing. -/
theorem resolve_song_url_spec (m : MultiSourceManager) (info : SongInfo) :
    (info.service = none → resolveSongUrl m info = none) ∧
    (∀ sname, info.service = some sname →
      (¬ ∃ s ∈ m.services, s.name = sname ∧ s.enabled = true) →
      resolveSongUrl m info = none) ∧
    (∀ sname s, info.service = some sname → sname ≠ "" →
      m.services.find? (fun t => t.name == sname && t.enabled) = some s →
      (∀ e, s.resolveResult info = .error e → resolveSongUrl m info = none) ∧
      (∀ r, s.resolveResult info = .ok r → resolveSongUrl m info = r)) := by
  refine ⟨?_, ?_, ?_⟩
  · intro h
    simp [resolveSongUrl, h]
  · intro sname hsv hnone
    by_cases hemp : sname = ""
    · simp [resolveSongUrl, hsv, hemp]
    · have hfind : m.services.find? (fun t => t.name == sname && t.enabled) = none := by
        rw [List.find?_eq_none]
        intro x hx
        simp only [Bool.and_eq_true, beq_iff_eq]
        intro hcontra
        exact hnone ⟨x, hx, hcontra.1, hcontra.2⟩
      simp [resolveSongUrl, hsv, hemp, hfind]
  · intro sname s hsv hne hfind
    constructor
    · intro e hres
      simp [resolveSongUrl, hsv, hne, hfind, hres]
    · intro r hres
      simp [resolveSongUrl, hsv, hne, hfind, hres]

/-- Closed instance of C4: a descriptor owned by the disabled web-video
provider resolves to nothing rather than raising. -/
theorem resolve_song_url_witness :
    resolveSongUrl mgrDis songY = none :=
  (resolve_song_url_spec mgrDis songY).2.1 "youtube" rfl (by decide)

/-! ### C1 — the driver's resolve-retry loop -/

theorem playNextSong_no_disconnect (m : MultiSourceManager) (queue : List SongInfo) :
    DriverAction.disconnectVoice ∉ (playNextSong m queue).actions := by
  induction queue with
  | nil => simp [playNextSong]
  | cons info rest ih =>
    cases h : resolveSongUrl m info with
    | none => simpa [playNextSong, h] using ih
    | some song => simp [playNextSong, h]

theorem playNextSong_all_fail (m : MultiSourceManager) (queue : List SongInfo)
    (h : ∀ x ∈ queue, resolveSongUrl m x = none) :
    (playNextSong m queue).queue = [] ∧ (playNextSong m queue).current = none ∧
    DriverAction.startInactivityTimer ∈ (playNextSong m queue).actions ∧
    ∀ x ∈ queue, DriverAction.resolveFailed x ∈ (playNextSong m queue).actions := by
  induction queue with
  | nil => simp [playNextSong]
  | cons info rest ih =>
    have hinfo : resolveSongUrl m info = none := h info (by simp)
    have hrest := ih (fun x hx => h x (by simp [hx]))
    refine ⟨by simp [playNextSong, hinfo, hrest.1],
            by simp [playNextSong, hinfo, hrest.2.1],
            by simp [playNextSong, hinfo, hrest.2.2.1],
            ?_⟩
    intro x hx
    rcases List.mem_cons.mp hx with hx | hx
    · subst hx
      simp [playNextSong, hinfo]
    · simp [playNextSong, hinfo, hrest.2.2.2 x hx]

theorem playNextSong_first_success (m : MultiSourceManager)
    (pre : List SongInfo) (info : SongInfo) (rest : List SongInfo)
    (hpre : ∀ x ∈ pre, resolveSongUrl m x = none)
    (song : SongInfo) (hsong : resolveSongUrl m info = some song) :
    (playNextSong m (pre ++ info :: rest)).queue = rest ∧
    (playNextSong m (pre ++ info :: rest)).current = some song ∧
    DriverAction.startPlayback song ∈ (playNextSong m (pre ++ info :: rest)).actions ∧
    ∀ x ∈ pre, DriverAction.resolveFailed x ∈ (playNextSong m (pre ++ info :: rest)).actions := by
  induction pre with
  | nil => simp [playNextSong, hsong]
  | cons p pre' ih =>
    have hp : resolveSongUrl m p = none := hpre p (by simp)
    have hrec := ih (fun x hx => hpre x (by simp [hx]))
    refine ⟨by simp [playNextSong, hp, hrec.1],
            by simp [playNextSong, hp, hrec.2.1],
            by simp [playNextSong, hp, hrec.2.2.1],
            ?_⟩
    intro x hx
    rcases List.mem_cons.mp hx with hx | hx
    · subst hx
      simp [playNextSong, hp]
    · simp [playNextSong, hp, hrec.2.2.2 x hx]

/-- C1: the driver never disconnects; on an empty queue it starts the
idle timer; a queue whose every descriptor fails to resolve is fully
drained with each descriptor dropped, ending in the idle timer; and when a
prefix fails but some descriptor resolves, the failed prefix is dropped,
the resolved song becomes current and is played, with the rest of the
queue left intact. -/
theorem play_next_song_spec (m : MultiSourceManager) (queue : List SongInfo) :
    DriverAction.disconnectVoice ∉ (playNextSong m queue).actions ∧
    (queue = [] →
      (playNextSong m queue).queue = [] ∧ (playNextSong m queue).current = none ∧
      DriverAction.startInactivityTimer ∈ (playNextSong m queue).actions) ∧
    ((∀ x ∈ queue, resolveSongUrl m x = none) →
      (playNextSong m queue).queue = [] ∧ (playNextSong m queue).current = none ∧
      DriverAction.startInactivityTimer ∈ (playNextSong m queue).actions ∧
      ∀ x ∈ queue, DriverAction.resolveFailed x ∈ (playNextSong m queue).actions) ∧
    (∀ pre info rest, queue = pre ++ info :: rest →
      (∀ x ∈ pre, resolveSongUrl m x = none) →
      ∀ song, resolveSongUrl m info = some song →
      (playNextSong m queue).queue = rest ∧
      (playNextSong m queue).current = some song ∧
      DriverAction.startPlayback song ∈ (playNextSong m queue).actions ∧
      ∀ x ∈ pre, DriverAction.resolveFailed x ∈ (playNextSong m queue).actions) := by
  refine ⟨playNextSong_no_disconnect m queue, ?_, playNextSong_all_fail m queue, ?_⟩
  · intro h
    subst h
    simp [playNextSong]
  · intro pre info rest hq hpre song hsong
    subst hq
    exact playNextSong_first_success m pre info rest hpre song hsong

/-- Closed instance of C1: the first queued descriptor belongs to a
disabled provider and is dropped; the second resolves and plays. -/
theorem play_next_song_witness :
    (playNextSong mgrDis [songY, songB]).current = some songBRes ∧
    (playNextSong mgrDis [songY, songB]).queue = [] ∧
    DriverAction.startPlayback songBRes ∈ (playNextSong mgrDis [songY, songB]).actions := by
  have h := (play_next_song_spec mgrDis [songY, songB]).2.2.2 [songY] songB []
    rfl (by decide) songBRes (by decide)
  exact ⟨h.2.1, h.1, h.2.2.1⟩

/-! ### C2 — priority-ordered fallback search -/

theorem attempt_succeeds_shape (s : AudioService) (q : String)
    (hs : fallbackAttemptFails s q = false) :
    s.availResult = .ok true ∧ ∃ r rs, s.searchResult q = .ok (r :: rs) := by
  unfold fallbackAttemptFails at hs
  cases ha : s.availResult with
  | error e => rw [ha] at hs; simp at hs
  | ok b =>
    cases b with
    | false => rw [ha] at hs; simp at hs
    | true =>
      rw [ha] at hs
      cases hq : s.searchResult q with
      | error e => rw [hq] at hs; simp at hs
      | ok rs =>
        rw [hq] at hs
        cases rs with
        | nil => simp at hs
        | cons r rs' => exact ⟨rfl, r, rs', rfl⟩

theorem fallbackLoop_cons_fail (q : String) (s : AudioService) (rest : List AudioService)
    (h : fallbackAttemptFails s q = true) :
    fallbackLoop q (s :: rest) = fallbackLoop q rest := by
  unfold fallbackAttemptFails at h
  cases ha : s.availResult with
  | error e => simp [fallbackLoop, ha]
  | ok b =>
    cases b with
    | false => simp [fallbackLoop, ha]
    | true =>
      rw [ha] at h
      cases hq : s.searchResult q with
      | error e => simp [fallbackLoop, ha, hq]
      | ok rs =>
        cases rs with
        | nil => simp [fallbackLoop, ha, hq]
        | cons r rs' => rw [hq] at h; simp at h

theorem fallbackVisited_cons_fail (q : String) (s : AudioService) (rest : List AudioService)
    (h : fallbackAttemptFails s q = true) :
    fallbackVisited q (s :: rest) = s :: fallbackVisited q rest := by
  simp [fallbackVisited, h]

theorem fallbackLoop_all_fail (q : String) (l : List AudioService)
    (h : ∀ s ∈ l, fallbackAttemptFails s q = true) :
    fallbackLoop q l = [] := by
  induction l with
  | nil => rfl
  | cons s rest ih =>
    rw [fallbackLoop_cons_fail q s rest (h s (by simp))]
    exact ih (fun t ht => h t (by simp [ht]))

theorem fallbackLoop_first_success (q : String) (pre : List AudioService)
    (s : AudioService) (post : List AudioService)
    (hpre : ∀ t ∈ pre, fallbackAttemptFails t q = true)
    (hs : fallbackAttemptFails s q = false) :
    s.availResult = .ok true ∧
    ∃ r rs, s.searchResult q = .ok (r :: rs) ∧
      fallbackLoop q (pre ++ s :: post) = r :: rs ∧
      fallbackVisited q (pre ++ s :: post) = pre ++ [s] := by
  induction pre with
  | nil =>
    obtain ⟨ha, r, rs, hq⟩ := attempt_succeeds_shape s q hs
    exact ⟨ha, r, rs, hq, by simp [fallbackLoop, ha, hq], by simp [fallbackVisited, hs]⟩
  | cons t pre' ih =>
    have ht : fallbackAttemptFails t q = true := hpre t (by simp)
    obtain ⟨ha, r, rs, hq, hloop, hvis⟩ := ih (fun u hu => hpre u (by simp [hu]))
    refine ⟨ha, r, rs, hq, ?_, ?_⟩
    · rw [List.cons_append, fallbackLoop_cons_fail q t _ ht, hloop]
    · rw [List.cons_append, fallbackVisited_cons_fail q t _ ht, hvis]
      rfl

theorem fallbackVisited_sublist (q : String) (l : List AudioService) :
    List.Sublist (fallbackVisited q l) l := by
  induction l with
  | nil => simp [fallbackVisited]
  | cons s rest ih =>
    by_cases h : fallbackAttemptFails s q = true
    · rw [fallbackVisited_cons_fail q s rest h]
      exact List.cons_sublist_cons.mpr ih
    · rw [fallbackVisited, if_neg h]
      exact List.cons_sublist_cons.mpr (List.nil_sublist rest)

/-- C2: the fallback search attempts only enabled providers, in ascending
priority order (given the registry's sort invariant); every failing
provider — probe raised, probe false, search raised, or empty result — is
passed over; the first provider with a non-empty result ends the loop with
exactly that result; and if every enabled provider fails the caller gets
the empty list (never an exception: the result type has no error
channel). -/
theorem search_with_fallback_spec (m : MultiSourceManager) (q : String)
    (hsorted : m.services.Pairwise (fun a b => a.priority ≤ b.priority)) :
    (∀ s ∈ fallbackVisited q m.getEnabledServices, s.enabled = true) ∧
    (fallbackVisited q m.getEnabledServices).Pairwise (fun a b => a.priority ≤ b.priority) ∧
    ((∀ s ∈ m.getEnabledServices, fallbackAttemptFails s q = true) →
      searchWithFallback m q = []) ∧
    (∀ pre s post, m.getEnabledServices = pre ++ s :: post →
      (∀ t ∈ pre, fallbackAttemptFails t q = true) →
      fallbackAttemptFails s q = false →
      s.availResult = .ok true ∧
      ∃ r rs, s.searchResult q = .ok (r :: rs) ∧
        searchWithFallback m q = r :: rs ∧
        fallbackVisited q m.getEnabledServices = pre ++ [s]) := by
  refine ⟨?_, ?_, ?_, ?_⟩
  · intro s hsv
    have hmem := (fallbackVisited_sublist q m.getEnabledServices).subset hsv
    exact (List.mem_filter.mp hmem).2
  · exact List.Pairwise.sublist
      (List.Sublist.trans (fallbackVisited_sublist q m.getEnabledServices)
        (List.filter_sublist m.services)) hsorted
  · intro h
    exact fallbackLoop_all_fail q m.getEnabledServices h
  · intro pre s post hdec hpre hs
    have h := fallbackLoop_first_success q pre s post hpre hs
    simp only [searchWithFallback]
    rw [hdec]
    exact h

/-- Closed instance of C2: a registry whose three providers respectively
raise on the probe, answer unavailable, and raise on search yields the
empty result, with no exception reaching the caller. -/
theorem search_with_fallback_witness :
    searchWithFallback mgrFail "samba" = [] :=
  (search_with_fallback_spec mgrFail "samba" (by decide)).2.2.1 (by decide)

/-! ### C3 — concurrent fan-out search -/

/-- C3: the fan-out search produces exactly one entry per enabled
provider (every task is awaited before the call returns); a provider whose
search succeeds is mapped to its own results truncated to the first
`k`, a raising provider to the empty list, and every value respects the
bound. -/
theorem search_all_sources_spec (m : MultiSourceManager) (q : String) (k : Nat) :
    (searchAllSources m q k).map Prod.fst = m.getEnabledServices.map (fun s => s.name) ∧
    (searchAllSources m q k).length = m.getEnabledServices.length ∧
    (∀ s ∈ m.getEnabledServices, ∀ r, s.searchResult q = .ok r →
      (s.name, r.take k) ∈ searchAllSources m q k) ∧
    (∀ s ∈ m.getEnabledServices, ∀ e, s.searchResult q = .error e →
      (s.name, ([] : List SongInfo)) ∈ searchAllSources m q k) ∧
    (∀ p ∈ searchAllSources m q k, p.2.length ≤ k) := by
  refine ⟨?_, ?_, ?_, ?_, ?_⟩
  · simp [searchAllSources, List.map_map, Function.comp]
  · simp [searchAllSources]
  · intro s hs r hr
    have hmem := List.mem_map_of_mem
      (fun s => (s.name, searchServiceWithLimit s q k)) hs
    simpa [searchAllSources, searchServiceWithLimit, hr] using hmem
  · intro s hs e hr
    have hmem := List.mem_map_of_mem
      (fun s => (s.name, searchServiceWithLimit s q k)) hs
    simpa [searchAllSources, searchServiceWithLimit, hr] using hmem
  · intro p hp
    simp only [searchAllSources, List.mem_map] at hp
    obtain ⟨s, _, rfl⟩ := hp
    cases hq : s.searchResult q with
    | ok r => simp [searchServiceWithLimit, hq, List.length_take]
    | error e => simp [searchServiceWithLimit, hq]

/-- Closed instance of C3: on a registry whose providers raise, answer
unavailable and raise on search respectively, the fan-out mapping still
has exactly the enabled providers as keys. -/
theorem search_all_sources_witness :
    (searchAllSources mgrFail "mpb" 2).map Prod.fst =
      mgrFail.getEnabledServices.map (fun s => s.name) :=
  (search_all_sources_spec mgrFail "mpb" 2).1

/-! ### C6 — the stop command -/

/-- C6: with a connected voice client, `/stop` clears the queue, the
current song and both timers, stops the transport exactly when it is
playing or paused, attempts the disconnect, and a disconnect timeout is
reported to the caller as a warning reply, never a raised fault, with the
state still cleared.  (The code tracks no background population task, so
that part of the claim is vacuous.) -/
theorem stop_command_spec (st : GuildPlaybackState) (vcPlaying vcPaused : Bool)
    (disc : DisconnectOutcome) :
    ((stopCommand st true vcPlaying vcPaused disc).1.queue = [] ∧
     (stopCommand st true vcPlaying vcPaused disc).1.current = none ∧
     (stopCommand st true vcPlaying vcPaused disc).1.inactivityTimer = none ∧
     (stopCommand st true vcPlaying vcPaused disc).1.emptyChannelTimer = none) ∧
    StopAction.cancelInactivityTimer ∈ (stopCommand st true vcPlaying vcPaused disc).2.1 ∧
    StopAction.cancelEmptyChannelTimer ∈ (stopCommand st true vcPlaying vcPaused disc).2.1 ∧
    ((vcPlaying || vcPaused) = true ↔
      StopAction.transportStop ∈ (stopCommand st true vcPlaying vcPaused disc).2.1) ∧
    StopAction.disconnectVoice ∈ (stopCommand st true vcPlaying vcPaused disc).2.1 ∧
    (disc = .timeout →
      (stopCommand st true vcPlaying vcPaused disc).2.2 = .stoppedWithWarning) ∧
    (disc = .success → (stopCommand st true vcPlaying vcPaused disc).2.2 = .stopped) := by
  cases disc <;> cases vcPlaying <;> cases vcPaused <;> simp [stopCommand]

/-- Closed instance of C6: stopping a playing guild whose disconnect
times out still clears the queue and yields the warning reply. -/
theorem stop_command_witness :
    (stopCommand stEx true true false .timeout).1.queue = [] ∧
    (stopCommand stEx true true false .timeout).2.2 = .stoppedWithWarning := by
  have h := stop_command_spec stEx true false .timeout
  exact ⟨h.1.1, h.2.2.2.2.2.1 rfl⟩

/-! ### C9 — non-media URL rejection in the web-video resolver -/

/-- C9: when the candidate audio URL the resolver settles on matches a
known non-media pattern (thumbnail or storyboard asset), `resolve_song`
returns nothing; and every song it does return carries a URL matching no
such pattern. -/
theorem resolve_song_nonmedia_spec (info : YtSongInfo) :
    (∀ u, ytCandidateUrl info = some u → isNonMediaUrl u = true →
      resolveSong info = none) ∧
    (∀ r, resolveSong info = some r → isNonMediaUrl r.url = false) := by
  constructor
  · intro u hu hbad
    simp [resolveSong, hu, hbad]
  · intro r hr
    unfold resolveSong at hr
    cases hu : ytCandidateUrl info with
    | none => rw [hu] at hr; simp at hr
    | some u =>
      rw [hu] at hr
      have hr2 : (if (u != "" && !isNonMediaUrl u) = true
          then some ({ url := u, title := ytDisplayTitle info
                       duration := info.duration, thumbnail := info.thumbnail } :
                       YtResolvedSong)
          else none) = some r := hr
      by_cases hc : (u != "" && !isNonMediaUrl u) = true
      · rw [if_pos hc] at hr2
        simp only [Bool.and_eq_true, bne_iff_ne, Bool.not_eq_true'] at hc
        obtain rfl := Option.some.inj hr2
        simpa using hc.2
      · rw [if_neg hc] at hr2
        simp at hr2

/-- Closed instance of C9: a descriptor whose only candidate URL is a
storyboard asset resolves to nothing. -/
theorem resolve_song_nonmedia_witness :
    resolveSong infoStory = none :=
  (resolve_song_nonmedia_spec infoStory).1
    "https://i.ytimg.com/sb/abc/storyboard3_L2/M0.jpg" (by decide) (by decide)

/-! ### C7 — at most one timer of each kind per guild -/

theorem lookup_eraseKey_ne (d : List (String × Nat)) (g g' : String) (h : g' ≠ g) :
    (eraseKey d g).lookup g' = d.lookup g' := by
  induction d with
  | nil => rfl
  | cons p rest ih =>
    obtain ⟨a, b⟩ := p
    by_cases hga : a = g
    · subst hga
      have hne : (g' == a) = false := beq_eq_false_iff_ne.mpr h
      simp only [eraseKey, List.filter_cons, bne_self_eq_false, List.lookup, hne]
      simpa [eraseKey] using ih
    · have hkeep : (a != g) = true := bne_iff_ne.mpr hga
      by_cases hga' : g' = a
      · subst hga'
        simp [eraseKey, List.lookup, hkeep]
      · have hne : (g' == a) = false := beq_eq_false_iff_ne.mpr hga'
        simp only [eraseKey, List.filter_cons, hkeep, if_true, List.lookup, hne]
        simpa [eraseKey] using ih

theorem cancelTimer_no_pair (sys : TimerSys) (g : String) (hinv : TimerInv sys) :
    ∀ u, (g, u) ∉ (cancelTimer sys g).running := by
  intro u hu
  unfold cancelTimer at hu
  cases hl : sys.tracked.lookup g with
  | none =>
    rw [hl] at hu
    have h2 := hinv.2 (g, u) hu
    rw [hl] at h2
    exact Option.noConfusion h2
  | some t =>
    rw [hl] at hu
    rw [List.mem_filter] at hu
    have h2 := hinv.2 (g, u) hu.1
    rw [hl] at h2
    have hut : t = u := Option.some.inj h2
    subst hut
    simp at hu

theorem cancelTimer_inv (sys : TimerSys) (g : String) (hinv : TimerInv sys) :
    TimerInv (cancelTimer sys g) := by
  unfold cancelTimer
  cases hl : sys.tracked.lookup g with
  | none => exact hinv
  | some t =>
    constructor
    · exact List.Nodup.sublist (List.Sublist.map Prod.fst (List.filter_sublist _)) hinv.1
    · intro p hp
      rw [List.mem_filter] at hp
      by_cases hpg : p.1 = g
      · exfalso
        have h2 := hinv.2 p hp.1
        rw [hpg, hl] at h2
        have hpt : p.2 = t := (Option.some.inj h2).symm
        have hcond := hp.2
        rw [hpg, hpt] at hcond
        simp at hcond
      · rw [lookup_eraseKey_ne _ _ _ hpg]
        exact hinv.2 p hp.1

theorem startTimer_running (sys : TimerSys) (g : String) (fresh : Nat) :
    (startTimer sys g fresh).running = (g, fresh) :: (cancelTimer sys g).running := rfl

theorem startTimer_tracked (sys : TimerSys) (g : String) (fresh : Nat) :
    (startTimer sys g fresh).tracked = insertKey (cancelTimer sys g).tracked g fresh := rfl

theorem startTimer_inv (sys : TimerSys) (g : String) (fresh : Nat)
    (hinv : TimerInv sys) : TimerInv (startTimer sys g fresh) := by
  have h1 := cancelTimer_inv sys g hinv
  have hng := cancelTimer_no_pair sys g hinv
  constructor
  · rw [startTimer_running, List.map_cons, List.nodup_cons]
    constructor
    · intro hmem
      obtain ⟨p, hp, hfst⟩ := List.mem_map.mp hmem
      have hfst' : p.1 = g := hfst
      have hp2 : (p.1, p.2) ∈ (cancelTimer sys g).running := by
        rw [Prod.mk.eta]; exact hp
      rw [hfst'] at hp2
      exact hng p.2 hp2
    · exact h1.1
  · intro p hp
    rw [startTimer_running] at hp
    rw [startTimer_tracked]
    rcases List.mem_cons.mp hp with rfl | hp'
    · simp [insertKey, List.lookup]
    · have hpg : p.1 ≠ g := by
        intro hh
        have hp2 : (p.1, p.2) ∈ (cancelTimer sys g).running := by
          rw [Prod.mk.eta]; exact hp'
        rw [hh] at hp2
        exact hng p.2 hp2
      have hgp : (p.1 == g) = false := beq_eq_false_iff_ne.mpr hpg
      rw [insertKey]
      simp only [List.lookup, hgp]
      rw [lookup_eraseKey_ne _ _ _ hpg]
      exact h1.2 p hp'

theorem nodup_fst_filter_len (l : List (String × Nat))
    (h : (l.map Prod.fst).Nodup) (g : String) :
    (l.filter (fun p => p.1 == g)).length ≤ 1 := by
  induction l with
  | nil => simp
  | cons p rest ih =>
    rw [List.map_cons, List.nodup_cons] at h
    by_cases hp : p.1 = g
    · have hrest : rest.filter (fun p => p.1 == g) = [] := by
        rw [List.filter_eq_nil_iff]
        intro a ha hag
        apply h.1
        have ha1 : a.1 = g := by simpa using hag
        rw [hp, ← ha1]
        exact List.mem_map_of_mem Prod.fst ha
      simp [List.filter_cons, hp, hrest]
    · simp [List.filter_cons, hp, ih h.2]

/-- C7: starting a timer of a kind first cancels the tracked one, so the
kind's invariant — at most one live timer task per guild, each matching
its dictionary entry — is preserved by start and cancel, and after a start
each guild has at most one live task of that kind.  On expiry, the idle
timer disconnects and clears the guild's queue and current song only if
nothing is playing or paused (and the timer is still tracked with a voice
client present); while something plays or is paused it changes nothing. -/
theorem timer_kind_uniqueness_spec (sys : TimerSys) (g : String) (fresh : Nat)
    (hinv : TimerInv sys) :
    TimerInv (startTimer sys g fresh) ∧
    TimerInv (cancelTimer sys g) ∧
    (∀ g', ((startTimer sys g fresh).running.filter (fun p => p.1 == g')).length ≤ 1) ∧
    (∀ (tracked vcPresent vcPlaying vcPaused : Bool) (queue : List SongInfo)
        (current : Option SongInfo), (vcPlaying || vcPaused) = true →
      inactivityExpiry tracked vcPresent vcPlaying vcPaused queue current =
        (queue, current, false)) ∧
    (∀ (queue : List SongInfo) (current : Option SongInfo),
      inactivityExpiry true true false false queue current = ([], none, true)) := by
  refine ⟨startTimer_inv sys g fresh hinv, cancelTimer_inv sys g hinv, ?_, ?_, ?_⟩
  · intro g'
    exact nodup_fst_filter_len _ (startTimer_inv sys g fresh hinv).1 g'
  · intro tr vcP p pd queue current h
    cases p <;> cases pd <;> simp_all [inactivityExpiry]
  · intro queue current
    rfl

/-- Closed instance of C7: restarting a guild's timer leaves it with a
single live timer task, and an expiry with music playing would leave the
state alone (here: with nothing playing, it clears queue and song). -/
theorem timer_kind_uniqueness_witness :
    ((startTimer sysEx "g1" 9).running.filter (fun p => p.1 == "g1")).length ≤ 1 ∧
    inactivityExpiry true true false false [songY] (some songB) = ([], none, true) := by
  have h := timer_kind_uniqueness_spec sysEx "g1" 9 ⟨by decide, by decide⟩
  exact ⟨h.2.2.1 "g1", h.2.2.2.2 [songY] (some songB)⟩

/-! ### C10 — the play command never touches the radio provider -/

theorem playSearchLoop_eq_take (q : String) (l : List AudioService) :
    playSearchLoop q l =
      (fallbackLoop q (l.filter (fun s => s.name != "radio"))).take 1 := by
  induction l with
  | nil => rfl
  | cons s rest ih =>
    by_cases hr : s.name = "radio"
    · have hb : (s.name != "radio") = false := by simp [hr]
      simp [playSearchLoop, hb, List.filter_cons, ih]
    · have hb : (s.name != "radio") = true := bne_iff_ne.mpr hr
      cases ha : s.availResult with
      | error e => simp [playSearchLoop, hb, List.filter_cons, fallbackLoop, ha, ih]
      | ok b =>
        cases b with
        | false => simp [playSearchLoop, hb, List.filter_cons, fallbackLoop, ha, ih]
        | true =>
          cases hq : s.searchResult q with
          | error e =>
            simp [playSearchLoop, hb, List.filter_cons, fallbackLoop, ha, hq, ih]
          | ok rs =>
            cases rs with
            | nil => simp [playSearchLoop, hb, List.filter_cons, fallbackLoop, ha, hq, ih]
            | cons r rs' => simp [playSearchLoop, hb, List.filter_cons, fallbackLoop, ha, hq]

theorem playSearchVisited_eq (q : String) (l : List AudioService) :
    playSearchVisited q l =
      fallbackVisited q (l.filter (fun s => s.name != "radio")) := by
  induction l with
  | nil => rfl
  | cons s rest ih =>
    by_cases hr : s.name = "radio"
    · have hb : (s.name != "radio") = false := by simp [hr]
      simp [playSearchVisited, hb, List.filter_cons, ih]
    · have hb : (s.name != "radio") = true := bne_iff_ne.mpr hr
      simp [playSearchVisited, hb, List.filter_cons, fallbackVisited, ih]

theorem fallbackLoop_mem (q : String) (l : List AudioService) (x : SongInfo)
    (hx : x ∈ fallbackLoop q l) :
    ∃ s ∈ l, ∃ rs, s.searchResult q = .ok rs ∧ x ∈ rs := by
  induction l with
  | nil => simp [fallbackLoop] at hx
  | cons s rest ih =>
    cases ha : s.availResult with
    | error e =>
      simp only [fallbackLoop, ha] at hx
      obtain ⟨t, ht, rs, hrs, hxr⟩ := ih hx
      exact ⟨t, by simp [ht], rs, hrs, hxr⟩
    | ok b =>
      cases b with
      | false =>
        simp only [fallbackLoop, ha] at hx
        obtain ⟨t, ht, rs, hrs, hxr⟩ := ih hx
        exact ⟨t, by simp [ht], rs, hrs, hxr⟩
      | true =>
        cases hq : s.searchResult q with
        | error e =>
          simp only [fallbackLoop, ha, hq] at hx
          obtain ⟨t, ht, rs, hrs, hxr⟩ := ih hx
          exact ⟨t, by simp [ht], rs, hrs, hxr⟩
        | ok rs =>
          cases rs with
          | nil =>
            simp only [fallbackLoop, ha, hq] at hx
            obtain ⟨t, ht, rs', hrs, hxr⟩ := ih hx
            exact ⟨t, by simp [ht], rs', hrs, hxr⟩
          | cons r rs' =>
            simp only [fallbackLoop, ha, hq] at hx
            exact ⟨s, by simp, r :: rs', hq, hx⟩

/-- C10: the `/play` search loop probes and searches only enabled
non-radio providers — even an enabled radio provider with the best
priority is never attempted; the loop enqueues at most one descriptor,
namely the first result of the first available non-radio provider with a
non-empty result (nothing if they all fail); and, providers tagging their
results with their own identifier, nothing `/play` enqueues is a radio
descriptor, while everything the `/radio` command enqueues is one. -/
theorem play_excludes_radio_spec (m : MultiSourceManager) (q : String)
    (htag : ∀ s ∈ m.services, ∀ q2 r, s.searchResult q2 = .ok r →
      ∀ x ∈ r, x.service = some s.name) :
    (playCommandSongs m q).length ≤ 1 ∧
    (∀ s ∈ playSearchVisited q m.getEnabledServices,
      s.name ≠ "radio" ∧ s.enabled = true) ∧
    ((∀ s ∈ m.getEnabledServices.filter (fun s => s.name != "radio"),
        fallbackAttemptFails s q = true) → playCommandSongs m q = []) ∧
    (∀ pre s post,
      m.getEnabledServices.filter (fun s => s.name != "radio") = pre ++ s :: post →
      (∀ t ∈ pre, fallbackAttemptFails t q = true) →
      fallbackAttemptFails s q = false →
      ∃ x rest, s.searchResult q = .ok (x :: rest) ∧ playCommandSongs m q = [x]) ∧
    (∀ x ∈ playCommandSongs m q, x.service ≠ some "radio") ∧
    (∀ genre, ∀ x ∈ radioCommandSongs m genre, x.service = some "radio") := by
  refine ⟨?_, ?_, ?_, ?_, ?_, ?_⟩
  · rw [playCommandSongs, playSearchLoop_eq_take]
    simp [List.length_take]
  · intro s hs
    rw [playSearchVisited_eq] at hs
    have hmem := (fallbackVisited_sublist q _).subset hs
    rw [List.mem_filter] at hmem
    have hen := (List.mem_filter.mp hmem.1).2
    exact ⟨bne_iff_ne.mp hmem.2, hen⟩
  · intro h
    rw [playCommandSongs, playSearchLoop_eq_take, fallbackLoop_all_fail q _ h]
    rfl
  · intro pre s post hdec hpre hs
    obtain ⟨_, r, rs, hsr, hloop, _⟩ := fallbackLoop_first_success q pre s post hpre hs
    refine ⟨r, rs, hsr, ?_⟩
    rw [playCommandSongs, playSearchLoop_eq_take, hdec, hloop]
    rfl
  · intro x hx
    rw [playCommandSongs, playSearchLoop_eq_take] at hx
    have hx2 := List.take_subset 1 _ hx
    obtain ⟨s, hsl, rs, hrs, hxr⟩ := fallbackLoop_mem q _ x hx2
    rw [List.mem_filter] at hsl
    have hsm := (List.mem_filter.mp hsl.1).1
    have hname : s.name ≠ "radio" := bne_iff_ne.mp hsl.2
    have hserv := htag s hsm q rs hrs x hxr
    rw [hserv]
    intro hcontra
    exact hname (Option.some.inj hcontra)
  · intro genre x hx
    unfold radioCommandSongs at hx
    cases hfind : m.getServiceByName "radio" with
    | none => rw [hfind] at hx; simp at hx
    | some rs =>
      rw [hfind] at hx
      have hx2 : x ∈ (match rs.searchResult genre with
        | Except.ok stations => stations
        | Except.error _ => ([] : List SongInfo)) := hx
      cases hsr : rs.searchResult genre with
      | error e => rw [hsr] at hx2; simp at hx2
      | ok stations =>
        rw [hsr] at hx2
        have hmem : rs ∈ m.services := List.mem_of_find?_eq_some hfind
        have hname : rs.name = "radio" := by
          have := List.find?_some hfind
          simpa using this
        have := htag rs hmem genre stations hsr x hx2
        rw [this, hname]

/-- Closed instance of C10: with the radio provider enabled at best
priority, the web-video provider returning nothing and the archive one
result, `/play` enqueues exactly the archive descriptor. -/
theorem play_excludes_radio_witness :
    playCommandSongs mgrEx "song" = [songB] := by
  have htag : ∀ s ∈ mgrEx.services, ∀ q2 r, s.searchResult q2 = .ok r →
      ∀ x ∈ r, x.service = some s.name := by
    intro s hs q2 r hr x hx
    simp only [mgrEx, List.mem_cons, List.not_mem_nil, or_false] at hs
    rcases hs with rfl | rfl | rfl
    · simp [svcRadioEx] at hr
      subst hr
      simp at hx
      subst hx
      rfl
    · simp [svcYouTubeEx] at hr
      subst hr
      simp at hx
    · simp [svcArchiveEx] at hr
      subst hr
      simp at hx
      subst hx
      rfl
  have h := (play_excludes_radio_spec mgrEx "song" htag).2.2.2.1
    [svcYouTubeEx] svcArchiveEx [] rfl (by decide) (by decide)
  obtain ⟨x, rest, hsr, hres⟩ := h
  have hsr2 : (Except.ok [songB] : PyResult (List SongInfo)) = Except.ok (x :: rest) := hsr
  injection hsr2 with hlist
  injection hlist with h1 h2
  rw [hres, ← h1]

end Musa
